import Mathlib

/-
  Verification development for the percolator-markets program.

  Shallow embedding of the core state (src/programs/percolator-markets/src/state.rs)
  and the instruction handlers (instructions/*.rs).  Machine integers (u16/u64/u128)
  are modelled as Nat with explicit modular reduction or checked/saturating
  operations exactly where the Rust source performs them.
-/

namespace Percolator

/-- Modulus of the u64 machine type, 2 to the 64. -/
def U64_MOD : Nat := 18446744073709551616

/-- Largest u64 value, the saturation bound of u64 saturating arithmetic. -/
def U64MAX : Nat := U64_MOD - 1

/-- Modulus of the u16 machine type (target of the `as u16` cast), 2 to the 16. -/
def U16_MOD : Nat := 65536

/-- Modulus of the u128 machine type, 2 to the 128. -/
def U128_MOD : Nat := 340282366920938463463374607431768211456

/-- u64 `saturating_add`. -/
def satAdd64 (a b : Nat) : Nat := min (a + b) U64MAX

/-- u64 `checked_add`: `none` models the Rust `None` on wraparound. -/
def checkedAdd64 (a b : Nat) : Option Nat :=
  if a + b ≤ U64MAX then some (a + b) else none

/-- u128 `checked_mul`: `none` models the Rust `None` on wraparound. -/
def checkedMul128 (a b : Nat) : Option Nat :=
  if a * b < U128_MOD then some (a * b) else none

/-- u64 wrapping subtraction, the release-mode semantics of `-=` on lamports. -/
def wrapSub64 (a b : Nat) : Nat := (a + (U64_MOD - b % U64_MOD)) % U64_MOD

/-- u64 wrapping addition, the release-mode semantics of `+=` on lamports. -/
def wrapAdd64 (a b : Nat) : Nat := (a + b) % U64_MOD

/-- MarketStatus from state.rs. -/
inductive MarketStatus
  | Open
  | Closed
  | Resolved
  | Cancelled
  | Settled
  deriving DecidableEq

/-- Outcome from state.rs. -/
inductive Outcome
  | Unresolved
  | Yes
  | No
  deriving DecidableEq

/-- BetSide from state.rs. -/
inductive BetSide
  | Yes
  | No
  deriving DecidableEq

/-- PercolatorError from errors.rs. -/
inductive PercolatorError
  | InvalidMarketStatus
  | MarketNotExpired
  | MarketExpired
  | UnauthorizedOracle
  | UnauthorizedCreator
  | ZeroBetAmount
  | BetAmountExceedsMax
  | AlreadySettled
  | AlreadyResolved
  | NoPosition
  | QuestionTooLong
  | DeadlineInPast
  | Overflow
  | VaultInsolvency
  | CannotCancelResolved
  | LosingSide
  | InvalidOutcome
  deriving DecidableEq

/-- Market account from state.rs.  Pubkeys are modelled as opaque Nat
identities; the fields not used by any instruction logic (mints, bumps,
question text, reserved space) are omitted. -/
structure Market where
  market_id : Nat := 0
  creator : Nat := 0
  oracle : Nat := 0
  target_value : Nat := 0
  deadline : Int := 0
  status : MarketStatus := MarketStatus.Open
  outcome : Outcome := Outcome.Unresolved
  yes_pool : Nat := 0
  no_pool : Nat := 0
  h_ratio_bps : Nat := 10000
  settled_amount : Nat := 0
  settlements_count : Nat := 0
  deriving DecidableEq

/-- UserPosition account from state.rs (pubkeys as Nat ids; bump omitted).
A zero-filled fresh account has deposited = 0 and side = Yes
(the Rust Default impl for BetSide). -/
structure UserPosition where
  user : Nat := 0
  side : BetSide := BetSide.Yes
  deposited : Nat := 0
  settled : Bool := false
  payout : Nat := 0
  deriving DecidableEq

/-- The accounts one instruction touches: the market, the caller's position
(`deposited = 0` means the zero-initialized account produced by
init_if_needed), the vault lamport balance, the caller's lamport balance
and the global volume counter. -/
structure ProgState where
  market : Market
  position : UserPosition
  vault_balance : Nat
  user_balance : Nat := 0
  total_volume : Nat := 0
  deriving DecidableEq

/-- Winner-side pool selected by the two outcome matches in
compute_h_ratio and calculate_payout (0 is never consulted for
Unresolved: both functions return early in that case). -/
def Market.winnerPool (m : Market) : Nat :=
  match m.outcome with
  | Outcome.Yes => m.yes_pool
  | Outcome.No => m.no_pool
  | Outcome.Unresolved => 0

/-- Loser-side pool selected by the two outcome matches in
compute_h_ratio and calculate_payout. -/
def Market.loserPool (m : Market) : Nat :=
  match m.outcome with
  | Outcome.Yes => m.no_pool
  | Outcome.No => m.yes_pool
  | Outcome.Unresolved => 0

/-- Body of Market::compute_h_ratio after the winner/loser selection:
`if winner_pool == 0 return 10000; total_claims = winner_pool.saturating_add(loser_pool);
if vault_balance >= total_claims then 10000 else ((vault_balance as u128 * 10000) / total_claims) as u16`.
The final `as u16` cast is the `% U16_MOD`. -/
def computeHRatioCore (winner_pool loser_pool vault_balance : Nat) : Nat :=
  if winner_pool = 0 then 10000
  else
    let total_claims := satAdd64 winner_pool loser_pool
    if total_claims ≤ vault_balance then 10000
    else (vault_balance * 10000 / total_claims) % U16_MOD

/-- Market::compute_h_ratio from state.rs.  The two `match self.outcome`
blocks (each returning 10000 on Unresolved) collapse into one outcome
dispatch. -/
def Market.compute_h_ratio (m : Market) (vault_balance : Nat) : Nat :=
  match m.outcome with
  | Outcome.Unresolved => 10000
  | Outcome.Yes => computeHRatioCore m.yes_pool m.no_pool vault_balance
  | Outcome.No => computeHRatioCore m.no_pool m.yes_pool vault_balance

/-- Body of Market::calculate_payout after the winner/loser selection:
`if winner_pool == 0 return 0; capital = user_stake;
profit = (user_stake as u128).checked_mul(loser_pool as u128).unwrap_or(0) / winner_pool;
profit_after_h = (profit * h_ratio_bps as u128) / 10000;
capital.saturating_add(profit_after_h as u64)`.
The u128 multiplication wraps modulo 2^128 in release mode and the
`as u64` cast is the `% U64_MOD`. -/
def calculatePayoutCore (winner_pool loser_pool h_ratio_bps user_stake : Nat) : Nat :=
  if winner_pool = 0 then 0
  else
    let capital := user_stake
    let profit := (checkedMul128 user_stake loser_pool).getD 0 / winner_pool
    let profit_after_h := profit * h_ratio_bps % U128_MOD / 10000
    satAdd64 capital (profit_after_h % U64_MOD)

/-- Market::calculate_payout from state.rs.  The two `match self.outcome`
blocks (each returning 0 on Unresolved) collapse into one outcome
dispatch. -/
def Market.calculate_payout (m : Market) (user_stake : Nat) : Nat :=
  match m.outcome with
  | Outcome.Unresolved => 0
  | Outcome.Yes => calculatePayoutCore m.yes_pool m.no_pool m.h_ratio_bps user_stake
  | Outcome.No => calculatePayoutCore m.no_pool m.yes_pool m.h_ratio_bps user_stake

/-- Sum of calculate_payout over the stakes of a set of winning positions. -/
def payoutSum (m : Market) (stakes : List Nat) : Nat :=
  (stakes.map (Market.calculate_payout m)).sum

/-- Winning-side test from settle.rs:
`match (market.outcome, position.side) { (Yes, Yes) => true, (No, No) => true, _ => false }`. -/
def is_winner (o : Outcome) (s : BetSide) : Bool :=
  match o, s with
  | Outcome.Yes, BetSide.Yes => true
  | Outcome.No, BetSide.No => true
  | _, _ => false

/-- place_bet from instructions/place_bet.rs.  Anchor account constraint
(market.status == Open, error InvalidMarketStatus) runs first, then the
handler: amount > 0 (ZeroBetAmount), clock < deadline (MarketExpired),
SOL transfer bettor to vault, pool increment on the side of the CALL with
checked addition (Overflow), position init on first bet (deposited == 0),
deposited and total_volume checked additions.  Any error aborts the whole
transaction, so the Except error carries no partial state. -/
def place_bet (st : ProgState) (bettor : Nat) (side : BetSide) (amount : Nat)
    (now : Int) : Except PercolatorError ProgState :=
  if st.market.status = MarketStatus.Open then
    if 0 < amount then
      if now < st.market.deadline then
        let vault' := st.vault_balance + amount
        let poolRes : Except PercolatorError Market :=
          match side with
          | BetSide.Yes =>
            match checkedAdd64 st.market.yes_pool amount with
            | some p => Except.ok { st.market with yes_pool := p }
            | none => Except.error PercolatorError.Overflow
          | BetSide.No =>
            match checkedAdd64 st.market.no_pool amount with
            | some p => Except.ok { st.market with no_pool := p }
            | none => Except.error PercolatorError.Overflow
        match poolRes with
        | Except.error e => Except.error e
        | Except.ok market' =>
          let pos0 := st.position
          let pos1 :=
            if pos0.deposited = 0 then { pos0 with user := bettor, side := side }
            else pos0
          match checkedAdd64 pos1.deposited amount with
          | none => Except.error PercolatorError.Overflow
          | some d =>
            match checkedAdd64 st.total_volume amount with
            | none => Except.error PercolatorError.Overflow
            | some tv =>
              Except.ok { market := market', position := { pos1 with deposited := d },
                          vault_balance := vault', user_balance := st.user_balance,
                          total_volume := tv }
      else Except.error PercolatorError.MarketExpired
    else Except.error PercolatorError.ZeroBetAmount
  else Except.error PercolatorError.InvalidMarketStatus

/-- settle from instructions/settle.rs.  Anchor constraints in account
order: market.status == Resolved (InvalidMarketStatus), !position.settled
(AlreadySettled), position.user == user (NoPosition); then the handler:
is_winner (LosingSide), payout = calculate_payout(position.deposited),
payout <= vault lamports (VaultInsolvency), lamport transfer vault to
user, position.settled/payout set, settled_amount and settlements_count
checked additions (Overflow). -/
def settle (st : ProgState) (caller : Nat) : Except PercolatorError ProgState :=
  if st.market.status = MarketStatus.Resolved then
    if st.position.settled then Except.error PercolatorError.AlreadySettled
    else if st.position.user = caller then
      if is_winner st.market.outcome st.position.side then
        let payout := Market.calculate_payout st.market st.position.deposited
        if payout ≤ st.vault_balance then
          match checkedAdd64 st.market.settled_amount payout,
                checkedAdd64 st.market.settlements_count 1 with
          | some sa, some sc =>
            Except.ok { st with
              vault_balance := wrapSub64 st.vault_balance payout,
              user_balance := wrapAdd64 st.user_balance payout,
              position := { st.position with settled := true, payout := payout },
              market :=
                { st.market with settled_amount := sa, settlements_count := sc } }
          | _, _ => Except.error PercolatorError.Overflow
        else Except.error PercolatorError.VaultInsolvency
      else Except.error PercolatorError.LosingSide
    else Except.error PercolatorError.NoPosition
  else Except.error PercolatorError.InvalidMarketStatus

/-- claim_refund from instructions/claim_refund.rs.  Anchor constraints in
account order: market.status == Cancelled (InvalidMarketStatus),
!position.settled (AlreadySettled), position.user == user (NoPosition);
then the handler: refund_amount = position.deposited, token burn
(external), UNGUARDED lamport subtraction vault -= refund_amount (wrapping
in release mode; no balance check, unlike settle), user += refund_amount,
position.settled = true, position.payout = refund_amount. -/
def claim_refund (st : ProgState) (caller : Nat) : Except PercolatorError ProgState :=
  if st.market.status = MarketStatus.Cancelled then
    if st.position.settled then Except.error PercolatorError.AlreadySettled
    else if st.position.user = caller then
      let refund_amount := st.position.deposited
      Except.ok { st with
        vault_balance := wrapSub64 st.vault_balance refund_amount,
        user_balance := wrapAdd64 st.user_balance refund_amount,
        position := { st.position with settled := true, payout := refund_amount } }
    else Except.error PercolatorError.NoPosition
  else Except.error PercolatorError.InvalidMarketStatus

/-- The market produced by a successful resolve: outcome written first,
then h_ratio_bps computed by compute_h_ratio on the market that already
carries the new outcome (the Rust handler mutates market.outcome before
calling market.compute_h_ratio), then status = Resolved. -/
def resolvedState (st : ProgState) (outcome : Outcome) : ProgState :=
  { st with market :=
    { st.market with
      outcome := outcome,
      h_ratio_bps :=
        Market.compute_h_ratio { st.market with outcome := outcome } st.vault_balance,
      status := MarketStatus.Resolved } }

/-- resolve_market from instructions/resolve.rs.  Anchor constraints in
account order: oracle.key == market.oracle (UnauthorizedOracle),
market.status == Open or Closed (AlreadyResolved); then the handler:
outcome != Unresolved (InvalidOutcome), outcome and h-ratio written,
status = Resolved. -/
def resolve_market (st : ProgState) (caller : Nat) (outcome : Outcome) :
    Except PercolatorError ProgState :=
  if caller = st.market.oracle then
    if st.market.status = MarketStatus.Open ∨ st.market.status = MarketStatus.Closed then
      if outcome = Outcome.Unresolved then Except.error PercolatorError.InvalidOutcome
      else Except.ok (resolvedState st outcome)
    else Except.error PercolatorError.AlreadyResolved
  else Except.error PercolatorError.UnauthorizedOracle

/-- cancel (CancelMarket) from instructions/cancel.rs.  Constraints:
authority == creator or oracle (UnauthorizedCreator), status == Open or
Closed (CannotCancelResolved); handler sets status = Cancelled. -/
def cancel_market (st : ProgState) (caller : Nat) : Except PercolatorError ProgState :=
  if caller = st.market.creator ∨ caller = st.market.oracle then
    if st.market.status = MarketStatus.Open ∨ st.market.status = MarketStatus.Closed then
      Except.ok { st with market := { st.market with status := MarketStatus.Cancelled } }
    else Except.error PercolatorError.CannotCancelResolved
  else Except.error PercolatorError.UnauthorizedCreator

/-- Transaction semantics of a Solana instruction: on error the whole
transaction reverts and the pre-state stands. -/
def runOr (st : ProgState) (r : Except PercolatorError ProgState) : ProgState :=
  match r with
  | Except.ok st' => st'
  | Except.error _ => st

/-- Unfolding of computeHRatioCore with the local let inlined. -/
lemma hratioCore_def (w l v : Nat) :
    computeHRatioCore w l v =
      if w = 0 then 10000
      else if satAdd64 w l ≤ v then 10000
      else v * 10000 / satAdd64 w l % U16_MOD := rfl

/-- Unfolding of calculatePayoutCore with the local lets inlined. -/
lemma payoutCore_def (w l h s : Nat) :
    calculatePayoutCore w l h s =
      if w = 0 then 0
      else satAdd64 s ((checkedMul128 s l).getD 0 / w * h % U128_MOD / 10000 % U64_MOD) :=
  rfl

lemma satAdd64_pos {a : Nat} (b : Nat) (ha : 0 < a) : 0 < satAdd64 a b := by
  unfold satAdd64 U64MAX U64_MOD
  omega

lemma satAdd64_le_sum (a b : Nat) : satAdd64 a b ≤ a + b := by
  unfold satAdd64
  exact min_le_left _ _

lemma hratioCore_le_10000 (w l v : Nat) : computeHRatioCore w l v ≤ 10000 := by
  rw [hratioCore_def]
  split
  · exact Nat.le_refl _
  · rename_i hw
    split
    · exact Nat.le_refl _
    · rename_i hvt
      have htc : 0 < satAdd64 w l := satAdd64_pos l (Nat.pos_of_ne_zero hw)
      have hvlt : v < satAdd64 w l := Nat.lt_of_not_le hvt
      have hlt : v * 10000 / satAdd64 w l < 10000 := by
        apply Nat.div_lt_of_lt_mul
        exact mul_lt_mul_of_pos_right hvlt (by norm_num)
      exact le_trans (Nat.mod_le _ _) (Nat.le_of_lt hlt)

lemma hratioCore_eq_10000 (w l v : Nat) (h : w = 0 ∨ w + l ≤ v) :
    computeHRatioCore w l v = 10000 := by
  rw [hratioCore_def]
  rcases h with h | h
  · rw [if_pos h]
  · by_cases hw : w = 0
    · rw [if_pos hw]
    · rw [if_neg hw, if_pos (le_trans (satAdd64_le_sum w l) h)]

lemma hratioCore_formula (w l v : Nat) (hw : 0 < w) (hv : v ≤ U64MAX)
    (hlt : v < w + l) :
    computeHRatioCore w l v = v * 10000 / satAdd64 w l := by
  rw [hratioCore_def, if_neg (Nat.pos_iff_ne_zero.mp hw)]
  by_cases hc : satAdd64 w l ≤ v
  · rw [if_pos hc]
    have hmax : satAdd64 w l = U64MAX := by
      simp only [satAdd64, U64MAX, U64_MOD] at hc ⊢
      omega
    have hveq : v = satAdd64 w l := by
      rw [hmax] at hc ⊢
      exact le_antisymm hv hc
    have hv0 : 0 < v := by
      rw [hveq, hmax]
      norm_num [U64MAX, U64_MOD]
    rw [← hveq, Nat.mul_div_cancel_left 10000 hv0]
  · rw [if_neg hc]
    have hvlt : v < satAdd64 w l := Nat.lt_of_not_le hc
    have hlt10000 : v * 10000 / satAdd64 w l < 10000 := by
      apply Nat.div_lt_of_lt_mul
      exact mul_lt_mul_of_pos_right hvlt (by norm_num)
    exact Nat.mod_eq_of_lt (lt_trans hlt10000 (by norm_num [U16_MOD]))

/-- C2: for every market and every u64 vault balance, compute_h_ratio is in
[0, 10000]; it is exactly 10000 whenever the winner pool is 0 or the vault
covers winner_pool + loser_pool; otherwise (definite outcome, positive
winner pool, under-collateralized vault) it equals
floor(vault_balance * 10000 / total_claims) with total_claims the u64
saturating sum winner_pool + loser_pool. -/
theorem C2_compute_h_ratio_range_and_formula (m : Market) (v : Nat)
    (hv : v ≤ U64MAX) :
    Market.compute_h_ratio m v ≤ 10000 ∧
    ((Market.winnerPool m = 0 ∨ Market.winnerPool m + Market.loserPool m ≤ v) →
      Market.compute_h_ratio m v = 10000) ∧
    (m.outcome ≠ Outcome.Unresolved → 0 < Market.winnerPool m →
      v < Market.winnerPool m + Market.loserPool m →
      Market.compute_h_ratio m v =
        v * 10000 / satAdd64 (Market.winnerPool m) (Market.loserPool m)) := by
  cases houtcome : m.outcome with
  | Unresolved =>
    refine ⟨?_, ?_, ?_⟩ <;>
      simp [Market.compute_h_ratio, houtcome]
  | Yes =>
    refine ⟨?_, ?_, ?_⟩
    · simp only [Market.compute_h_ratio, houtcome]
      exact hratioCore_le_10000 _ _ _
    · intro h
      simp only [Market.winnerPool, Market.loserPool, houtcome] at h
      simp only [Market.compute_h_ratio, houtcome]
      exact hratioCore_eq_10000 _ _ _ h
    · intro _ hw hlt
      simp only [Market.winnerPool, Market.loserPool, houtcome] at hw hlt ⊢
      simp only [Market.compute_h_ratio, houtcome]
      exact hratioCore_formula _ _ _ hw hv hlt
  | No =>
    refine ⟨?_, ?_, ?_⟩
    · simp only [Market.compute_h_ratio, houtcome]
      exact hratioCore_le_10000 _ _ _
    · intro h
      simp only [Market.winnerPool, Market.loserPool, houtcome] at h
      simp only [Market.compute_h_ratio, houtcome]
      exact hratioCore_eq_10000 _ _ _ h
    · intro _ hw hlt
      simp only [Market.winnerPool, Market.loserPool, houtcome] at hw hlt ⊢
      simp only [Market.compute_h_ratio, houtcome]
      exact hratioCore_formula _ _ _ hw hv hlt

/-- C2 witness: the theorem applied at the Scenario B market and vault. -/
theorem C2_witness :
    Market.compute_h_ratio
      { outcome := Outcome.Yes, yes_pool := 1000, no_pool := 500 } 1200 ≤ 10000 :=
  (C2_compute_h_ratio_range_and_formula
    { outcome := Outcome.Yes, yes_pool := 1000, no_pool := 500 } 1200 (by decide)).1

/-- Pre-resolution state of the C1 failing input: an Open market with
yes_pool = 1000, no_pool = 500, a vault of 1200 lamports at resolution
time, and a single YES position holding the whole winning pool. -/
def stC1 : ProgState :=
  { market := { market_id := 1, creator := 1, oracle := 2, deadline := 100,
                status := MarketStatus.Open, yes_pool := 1000, no_pool := 500 },
    position := { user := 7, side := BetSide.Yes, deposited := 1000 },
    vault_balance := 1200 }

/-- C1: REFUTED on the code.  Resolving the stC1 market to YES with the
vault at 1200 yields h_ratio_bps = 8000, yet the single winning position
(stake 1000 = winner_pool) has calculate_payout = 1400 > 1200: the sum of
payouts over all winning positions exceeds the vault balance the h-ratio
was computed from.  The haircut divides by winner_pool + loser_pool but is
applied to profit only, so any market with positive pools on both sides
and winner_pool <= vault < winner_pool + loser_pool overdraws. -/
theorem C1_payout_sum_exceeds_resolution_vault :
    (runOr stC1 (resolve_market stC1 2 Outcome.Yes)).market.status =
      MarketStatus.Resolved ∧
    (runOr stC1 (resolve_market stC1 2 Outcome.Yes)).market.h_ratio_bps = 8000 ∧
    Market.winnerPool (runOr stC1 (resolve_market stC1 2 Outcome.Yes)).market =
      List.sum [1000] ∧
    stC1.position.deposited = 1000 ∧
    payoutSum (runOr stC1 (resolve_market stC1 2 Outcome.Yes)).market [1000] = 1400 ∧
    stC1.vault_balance <
      payoutSum (runOr stC1 (resolve_market stC1 2 Outcome.Yes)).market [1000] := by
  decide

lemma payoutCore_formula (w l h s : Nat) (hw : 0 < w) (hs : s ≤ w)
    (hwm : w ≤ U64MAX) (hlm : l ≤ U64MAX) (hh : h ≤ 10000) :
    calculatePayoutCore w l h s = satAdd64 s (s * l / w * h / 10000) := by
  rw [payoutCore_def, if_neg (Nat.pos_iff_ne_zero.mp hw)]
  have hsm : s ≤ U64MAX := le_trans hs hwm
  have hmul : s * l < U128_MOD := by
    calc s * l ≤ U64MAX * U64MAX := Nat.mul_le_mul hsm hlm
      _ < U128_MOD := by norm_num [U64MAX, U64_MOD, U128_MOD]
  have hget : (checkedMul128 s l).getD 0 = s * l := by
    simp [checkedMul128, hmul]
  rw [hget]
  have hprofit : s * l / w ≤ l := by
    calc s * l / w ≤ w * l / w := Nat.div_le_div_right (Nat.mul_le_mul_right l hs)
      _ = l := Nat.mul_div_cancel_left l hw
  have hmod128 : s * l / w * h % U128_MOD = s * l / w * h := by
    apply Nat.mod_eq_of_lt
    calc s * l / w * h ≤ l * 10000 := Nat.mul_le_mul hprofit hh
      _ ≤ U64MAX * 10000 := Nat.mul_le_mul_right 10000 hlm
      _ < U128_MOD := by norm_num [U64MAX, U64_MOD, U128_MOD]
  rw [hmod128]
  have hafter : s * l / w * h / 10000 ≤ l := by
    calc s * l / w * h / 10000 ≤ l * 10000 / 10000 :=
          Nat.div_le_div_right (Nat.mul_le_mul hprofit hh)
      _ = l := by omega
  have hmod64 : s * l / w * h / 10000 % U64_MOD = s * l / w * h / 10000 := by
    apply Nat.mod_eq_of_lt
    have hl2 : l < U64_MOD := by
      simp only [U64MAX, U64_MOD] at hlm ⊢
      omega
    exact lt_of_le_of_lt hafter hl2
  rw [hmod64]

/-- Scenario A market from the spec: winner_pool = 1000, loser_pool = 500,
resolved YES, fully solvent (h = 10000 basis points). -/
def marketScenA : Market :=
  { status := MarketStatus.Resolved, outcome := Outcome.Yes,
    yes_pool := 1000, no_pool := 500, h_ratio_bps := 10000 }

/-- Scenario B market: same pools, h-ratio computed by compute_h_ratio from
a vault balance of 1200 at resolution time. -/
def marketScenB : Market :=
  { marketScenA with h_ratio_bps := Market.compute_h_ratio marketScenA 1200 }

/-- C3: on a resolved market with positive winner pool and
h_ratio_bps ≤ 10000 (as compute_h_ratio guarantees), a winning stake s with
s ≤ winner_pool pays exactly
s + floor(floor(s * loser_pool / winner_pool) * h_ratio_bps / 10000), the
final sum saturating at the u64 maximum; Scenario A pays 150 for a stake
of 100 and Scenario B (h = 8000 from vault 1200) pays 140. -/
theorem C3_calculate_payout_formula (m : Market) (s : Nat)
    (ho : m.outcome ≠ Outcome.Unresolved) (hw : 0 < Market.winnerPool m)
    (hs : s ≤ Market.winnerPool m) (hh : m.h_ratio_bps ≤ 10000)
    (hwm : Market.winnerPool m ≤ U64MAX) (hlm : Market.loserPool m ≤ U64MAX) :
    Market.calculate_payout m s =
      satAdd64 s
        (s * Market.loserPool m / Market.winnerPool m * m.h_ratio_bps / 10000) ∧
    marketScenB.h_ratio_bps = 8000 ∧
    Market.calculate_payout marketScenA 100 = 150 ∧
    Market.calculate_payout marketScenB 100 = 140 := by
  refine ⟨?_, by decide, by decide, by decide⟩
  cases houtcome : m.outcome with
  | Unresolved => exact absurd houtcome ho
  | Yes =>
    simp only [Market.winnerPool, Market.loserPool, houtcome] at hw hs hwm hlm ⊢
    simp only [Market.calculate_payout, houtcome]
    exact payoutCore_formula _ _ _ _ hw hs hwm hlm hh
  | No =>
    simp only [Market.winnerPool, Market.loserPool, houtcome] at hw hs hwm hlm ⊢
    simp only [Market.calculate_payout, houtcome]
    exact payoutCore_formula _ _ _ _ hw hs hwm hlm hh

/-- C3 witness: the theorem applied to the Scenario A market at stake 100. -/
theorem C3_witness :
    Market.calculate_payout marketScenA 100 =
      satAdd64 100
        (100 * Market.loserPool marketScenA / Market.winnerPool marketScenA *
          marketScenA.h_ratio_bps / 10000) :=
  (C3_calculate_payout_formula marketScenA 100 (by decide) (by decide) (by decide)
    (by decide) (by decide) (by decide)).1

lemma payoutCore_ge_stake (w l h s : Nat) (hw : w ≠ 0) (hsm : s ≤ U64MAX) :
    s ≤ calculatePayoutCore w l h s := by
  rw [payoutCore_def, if_neg hw]
  unfold satAdd64
  exact le_min (Nat.le_add_right _ _) hsm

/-- C7: for every winning position whose stake is part of the winner pool,
whenever the vault balance at least covers the winner pool the payout is at
least the stake: the senior capital claim is never haircut, whatever the
stored h_ratio_bps is. -/
theorem C7_principal_never_haircut (m : Market) (s v : Nat)
    (ho : m.outcome ≠ Outcome.Unresolved) (hs : s ≤ Market.winnerPool m)
    (_hv : Market.winnerPool m ≤ v) (hsm : s ≤ U64MAX) :
    s ≤ Market.calculate_payout m s := by
  cases houtcome : m.outcome with
  | Unresolved => exact absurd houtcome ho
  | Yes =>
    simp only [Market.winnerPool, houtcome] at hs
    simp only [Market.calculate_payout, houtcome]
    by_cases hw : m.yes_pool = 0
    · have hs0 : s = 0 := by omega
      simp [hs0]
    · exact payoutCore_ge_stake _ _ _ _ hw hsm
  | No =>
    simp only [Market.winnerPool, houtcome] at hs
    simp only [Market.calculate_payout, houtcome]
    by_cases hw : m.no_pool = 0
    · have hs0 : s = 0 := by omega
      simp [hs0]
    · exact payoutCore_ge_stake _ _ _ _ hw hsm

/-- C7 witness: the theorem at the Scenario B market, stake 100, vault 1200. -/
theorem C7_witness : 100 ≤ Market.calculate_payout marketScenB 100 :=
  C7_principal_never_haircut marketScenB 100 1200 (by decide) (by decide)
    (by decide) (by decide)

lemma checkedAdd64_some {a b c : Nat} (h : checkedAdd64 a b = some c) :
    c = a + b ∧ a + b ≤ U64MAX := by
  unfold checkedAdd64 at h
  split at h
  · rename_i hle
    cases h
    exact ⟨rfl, hle⟩
  · cases h

/-- A state in which user 7 already holds a position bound to YES
(deposited = 100 on an Open market whose yes_pool is 100). -/
def stC4 : ProgState :=
  { market := { market_id := 1, creator := 1, oracle := 2, deadline := 100,
                status := MarketStatus.Open, yes_pool := 100, no_pool := 0 },
    position := { user := 7, side := BetSide.Yes, deposited := 100 },
    vault_balance := 100, total_volume := 100 }

/-- C4 counterexample: user 7, bound to YES, places a later bet of 50 on
NO.  The bet succeeds, the recorded side stays YES and deposited grows to
150, but the pool credited is the NO pool of the call (no_pool becomes 50)
and the bound side's yes_pool stays 100 — refuting the claim that the pool
credited is that of the side bound at position creation. -/
theorem C4_cex :
    (runOr stC4 (place_bet stC4 7 BetSide.No 50 0)).position.side = BetSide.Yes ∧
    (runOr stC4 (place_bet stC4 7 BetSide.No 50 0)).position.deposited = 150 ∧
    (runOr stC4 (place_bet stC4 7 BetSide.No 50 0)).market.yes_pool = 100 ∧
    (runOr stC4 (place_bet stC4 7 BetSide.No 50 0)).market.no_pool = 50 ∧
    ¬ (runOr stC4 (place_bet stC4 7 BetSide.No 50 0)).market.yes_pool =
        stC4.market.yes_pool + 50 := by
  decide

/-- C4 as amended: a later successful place_bet by a participant whose
position is already bound (deposited > 0) never changes the recorded side
or user and adds the amount to the position's deposited stake, but the
pool credited is that of the side passed to the call — the CALL side, not
the bound side. -/
theorem C4_side_binding (st : ProgState) (bettor : Nat) (side : BetSide)
    (amount : Nat) (now : Int) (st' : ProgState)
    (hpos : 0 < st.position.deposited)
    (hok : place_bet st bettor side amount now = Except.ok st') :
    st'.position.side = st.position.side ∧
    st'.position.user = st.position.user ∧
    st'.position.deposited = st.position.deposited + amount ∧
    (side = BetSide.Yes → st'.market.yes_pool = st.market.yes_pool + amount ∧
      st'.market.no_pool = st.market.no_pool) ∧
    (side = BetSide.No → st'.market.no_pool = st.market.no_pool + amount ∧
      st'.market.yes_pool = st.market.yes_pool) := by
  have hpd : ¬ st.position.deposited = 0 := by omega
  cases side with
  | Yes =>
    simp only [place_bet] at hok
    split at hok
    swap
    · exact absurd hok (by simp)
    split at hok
    swap
    · exact absurd hok (by simp)
    split at hok
    swap
    · exact absurd hok (by simp)
    rcases hadd : checkedAdd64 st.market.yes_pool amount with _ | p
    · rw [hadd] at hok
      exact absurd hok (by simp)
    · rw [hadd] at hok
      rcases hd : checkedAdd64 st.position.deposited amount with _ | d
      · rw [hd] at hok
        exact absurd hok (by simp)
      · rw [hd] at hok
        rcases htv : checkedAdd64 st.total_volume amount with _ | tv
        · rw [htv] at hok
          exact absurd hok (by simp)
        · rw [htv] at hok
          simp only [Except.ok.injEq] at hok
          subst hok
          obtain ⟨hd1, _⟩ := checkedAdd64_some hd
          obtain ⟨hp1, _⟩ := checkedAdd64_some hadd
          simp [hd1, hp1]
  | No =>
    simp only [place_bet] at hok
    split at hok
    swap
    · exact absurd hok (by simp)
    split at hok
    swap
    · exact absurd hok (by simp)
    split at hok
    swap
    · exact absurd hok (by simp)
    rcases hadd : checkedAdd64 st.market.no_pool amount with _ | p
    · rw [hadd] at hok
      exact absurd hok (by simp)
    · rw [hadd] at hok
      rcases hd : checkedAdd64 st.position.deposited amount with _ | d
      · rw [hd] at hok
        exact absurd hok (by simp)
      · rw [hd] at hok
        rcases htv : checkedAdd64 st.total_volume amount with _ | tv
        · rw [htv] at hok
          exact absurd hok (by simp)
        · rw [htv] at hok
          simp only [Except.ok.injEq] at hok
          subst hok
          obtain ⟨hd1, _⟩ := checkedAdd64_some hd
          obtain ⟨hp1, _⟩ := checkedAdd64_some hadd
          simp [hd1, hp1]

/-- C4 witness: the amended theorem applied to the stC4 cross-side bet. -/
theorem C4_witness :
    (runOr stC4 (place_bet stC4 7 BetSide.No 50 0)).position.side =
      stC4.position.side :=
  (C4_side_binding stC4 7 BetSide.No 50 0
    (runOr stC4 (place_bet stC4 7 BetSide.No 50 0)) (by decide) rfl).1

/-- C5: place_bet rejects a zero amount with ZeroBetAmount, rejects any
call on a non-Open market, rejects any well-formed call at or past the
deadline with MarketExpired (the amount check runs first in the handler),
and on every failure the yes and no pools are unchanged. -/
theorem C5_place_bet_guards (st : ProgState) (bettor : Nat) (side : BetSide)
    (amount : Nat) (now : Int) :
    (st.market.status ≠ MarketStatus.Open →
      place_bet st bettor side amount now =
        Except.error PercolatorError.InvalidMarketStatus) ∧
    (st.market.status = MarketStatus.Open → amount = 0 →
      place_bet st bettor side amount now =
        Except.error PercolatorError.ZeroBetAmount) ∧
    (st.market.status = MarketStatus.Open → 0 < amount →
      st.market.deadline ≤ now →
      place_bet st bettor side amount now =
        Except.error PercolatorError.MarketExpired) ∧
    (∀ e, place_bet st bettor side amount now = Except.error e →
      (runOr st (place_bet st bettor side amount now)).market.yes_pool =
          st.market.yes_pool ∧
      (runOr st (place_bet st bettor side amount now)).market.no_pool =
          st.market.no_pool) := by
  refine ⟨?_, ?_, ?_, ?_⟩
  · intro h
    simp only [place_bet, if_neg h]
  · intro hopen hz
    subst hz
    simp [place_bet, hopen]
  · intro hopen hamt hdl
    have hnl : ¬ now < st.market.deadline := by omega
    simp only [place_bet, if_pos hopen, if_pos hamt, if_neg hnl]
  · intro e he
    rw [he]
    exact ⟨rfl, rfl⟩

/-- C5 witness: the theorem applied to a bet of 10 placed exactly at the
deadline of the stC4 market. -/
theorem C5_witness :
    place_bet stC4 7 BetSide.Yes 10 100 =
      Except.error PercolatorError.MarketExpired :=
  (C5_place_bet_guards stC4 7 BetSide.Yes 10 100).2.2.1 rfl (by decide) (by decide)

/-- C6: settle demands a Resolved market and an unsettled position
(AlreadySettled otherwise, after the status constraint), fails with
LosingSide on a losing position rather than paying zero, re-verifies
payout against the live vault balance and fails with VaultInsolvency when
the vault cannot cover it, and every failure leaves the state unchanged. -/
theorem C6_settle_guards (st : ProgState) (caller : Nat) :
    (st.market.status ≠ MarketStatus.Resolved →
      settle st caller = Except.error PercolatorError.InvalidMarketStatus) ∧
    (st.market.status = MarketStatus.Resolved → st.position.settled = true →
      settle st caller = Except.error PercolatorError.AlreadySettled) ∧
    (st.market.status = MarketStatus.Resolved → st.position.settled = false →
      st.position.user = caller →
      is_winner st.market.outcome st.position.side = false →
      settle st caller = Except.error PercolatorError.LosingSide) ∧
    (st.market.status = MarketStatus.Resolved → st.position.settled = false →
      st.position.user = caller →
      is_winner st.market.outcome st.position.side = true →
      st.vault_balance < Market.calculate_payout st.market st.position.deposited →
      settle st caller = Except.error PercolatorError.VaultInsolvency) ∧
    (∀ e, settle st caller = Except.error e →
      runOr st (settle st caller) = st) := by
  refine ⟨?_, ?_, ?_, ?_, ?_⟩
  · intro h
    simp only [settle, if_neg h]
  · intro h1 h2
    simp [settle, h1, h2]
  · intro h1 h2 h3 h4
    simp [settle, h1, h2, h3, h4]
  · intro h1 h2 h3 h4 h5
    have hno : ¬ Market.calculate_payout st.market st.position.deposited ≤
        st.vault_balance := by omega
    simp [settle, h1, h2, h3, h4, hno]
  · intro e he
    rw [he]
    rfl

/-- A Resolved market where user 7 holds an unsettled NO position: the
losing side once the outcome is YES. -/
def stC6 : ProgState :=
  { market := { market_id := 1, creator := 1, oracle := 2, deadline := 100,
                status := MarketStatus.Resolved, outcome := Outcome.Yes,
                yes_pool := 1000, no_pool := 500, h_ratio_bps := 10000 },
    position := { user := 7, side := BetSide.No, deposited := 500 },
    vault_balance := 1500 }

/-- C6 witness: the theorem applied to the losing position of stC6. -/
theorem C6_witness :
    settle stC6 7 = Except.error PercolatorError.LosingSide :=
  (C6_settle_guards stC6 7).2.2.1 rfl rfl rfl rfl

/-- A Cancelled market whose position for user 7 is already settled
(refunded, deposited = payout = 250). -/
def stC8 : ProgState :=
  { market := { market_id := 1, creator := 1, oracle := 2, deadline := 100,
                status := MarketStatus.Cancelled },
    position := { user := 7, side := BetSide.Yes, deposited := 250,
                  settled := true, payout := 250 },
    vault_balance := 0 }

/-- C8 counterexample: on the settled position of the Cancelled market
stC8, a settle attempt fails with InvalidMarketStatus (the market-status
constraint runs before the settled-flag constraint), not with
AlreadySettled as the claim states for every subsequent settle attempt. -/
theorem C8_cex :
    stC8.position.settled = true ∧
    settle stC8 7 = Except.error PercolatorError.InvalidMarketStatus ∧
    ¬ settle stC8 7 = Except.error PercolatorError.AlreadySettled :=
  ⟨rfl, rfl, fun h => by
    rw [show settle stC8 7 =
        (Except.error PercolatorError.InvalidMarketStatus :
          Except PercolatorError ProgState) from rfl] at h
    simp at h⟩

/-- C8 as amended: claim_refund on a Cancelled market with an unsettled
position pays exactly position.deposited (no profit), sets settled = true
and payout = deposited; once settled = true, a subsequent claim_refund on
the Cancelled market fails with AlreadySettled, a subsequent settle fails
with AlreadySettled only on a Resolved market and with InvalidMarketStatus
on the Cancelled market (the status constraint precedes the settled
check); every such failure leaves the state unchanged. -/
theorem C8_refund_and_one_way_settled (st : ProgState) (caller : Nat) :
    (st.market.status = MarketStatus.Cancelled → st.position.settled = false →
      st.position.user = caller →
      claim_refund st caller = Except.ok { st with
        vault_balance := wrapSub64 st.vault_balance st.position.deposited,
        user_balance := wrapAdd64 st.user_balance st.position.deposited,
        position :=
          { st.position with settled := true, payout := st.position.deposited } }) ∧
    (st.position.settled = true → st.market.status = MarketStatus.Cancelled →
      claim_refund st caller = Except.error PercolatorError.AlreadySettled) ∧
    (st.position.settled = true → st.market.status = MarketStatus.Resolved →
      settle st caller = Except.error PercolatorError.AlreadySettled) ∧
    (st.position.settled = true → st.market.status = MarketStatus.Cancelled →
      settle st caller = Except.error PercolatorError.InvalidMarketStatus) ∧
    (∀ e, claim_refund st caller = Except.error e →
      runOr st (claim_refund st caller) = st) ∧
    (∀ e, settle st caller = Except.error e →
      runOr st (settle st caller) = st) := by
  refine ⟨?_, ?_, ?_, ?_, ?_, ?_⟩
  · intro h1 h2 h3
    simp [claim_refund, h1, h2, h3]
  · intro h1 h2
    simp [claim_refund, h1, h2]
  · intro h1 h2
    simp [settle, h1, h2]
  · intro h1 h2
    simp [settle, h1, h2]
  · intro e he
    rw [he]
    rfl
  · intro e he
    rw [he]
    rfl

/-- The Scenario D state: a Cancelled market and an unsettled position
with deposited = 250 for user 7. -/
def stC8w : ProgState :=
  { market := { market_id := 1, creator := 1, oracle := 2, deadline := 100,
                status := MarketStatus.Cancelled },
    position := { user := 7, side := BetSide.No, deposited := 250 },
    vault_balance := 400 }

/-- C8 witness: the amended theorem refunds exactly the 250 deposited in
Scenario D and marks the position settled. -/
theorem C8_witness :
    claim_refund stC8w 7 = Except.ok { stC8w with
      vault_balance := wrapSub64 stC8w.vault_balance 250,
      user_balance := wrapAdd64 stC8w.user_balance 250,
      position := { stC8w.position with settled := true, payout := 250 } } :=
  (C8_refund_and_one_way_settled stC8w 7).1 rfl rfl rfl

lemma runOr_resolve_on_resolved (st : ProgState)
    (h : st.market.status = MarketStatus.Resolved) (c : Nat) (o : Outcome) :
    runOr st (resolve_market st c o) = st := by
  by_cases hc : c = st.market.oracle
  · simp [resolve_market, hc, h, runOr]
  · simp [resolve_market, hc, runOr]

lemma runOr_cancel_on_resolved (st : ProgState)
    (h : st.market.status = MarketStatus.Resolved) (c : Nat) :
    runOr st (cancel_market st c) = st := by
  by_cases hc : c = st.market.creator ∨ c = st.market.oracle
  · simp [cancel_market, hc, h, runOr]
  · simp [cancel_market, hc, runOr]

lemma runOr_place_bet_not_open (st : ProgState)
    (h : st.market.status ≠ MarketStatus.Open) (b : Nat) (sd : BetSide)
    (a : Nat) (n : Int) :
    runOr st (place_bet st b sd a n) = st := by
  simp [place_bet, h, runOr]

lemma runOr_refund_not_cancelled (st : ProgState)
    (h : st.market.status ≠ MarketStatus.Cancelled) (c : Nat) :
    runOr st (claim_refund st c) = st := by
  simp [claim_refund, h, runOr]

/-- A successful settle only touches vault, user balance, the position and
the market's settlement counters. -/
lemma settle_ok_market (st : ProgState) (c : Nat) (st' : ProgState)
    (h : settle st c = Except.ok st') :
    st'.market.outcome = st.market.outcome ∧
    st'.market.h_ratio_bps = st.market.h_ratio_bps ∧
    st'.market.status = st.market.status ∧
    st'.market.yes_pool = st.market.yes_pool ∧
    st'.market.no_pool = st.market.no_pool := by
  simp only [settle] at h
  repeat' split at h
  all_goals cases h
  all_goals exact ⟨rfl, rfl, rfl, rfl, rfl⟩

/-- Outcome, h_ratio_bps, status and the pools survive any settle call,
successful or not. -/
lemma settle_preserves_resolution (st : ProgState) (c : Nat) :
    (runOr st (settle st c)).market.outcome = st.market.outcome ∧
    (runOr st (settle st c)).market.h_ratio_bps = st.market.h_ratio_bps ∧
    (runOr st (settle st c)).market.status = st.market.status ∧
    (runOr st (settle st c)).market.yes_pool = st.market.yes_pool ∧
    (runOr st (settle st c)).market.no_pool = st.market.no_pool := by
  cases hres : settle st c with
  | error e => exact ⟨rfl, rfl, rfl, rfl, rfl⟩
  | ok st' => exact settle_ok_market st c st' hres

/-- C9: resolve_market demands the designated oracle (UnauthorizedOracle),
an Open or Closed status (AlreadyResolved) and a definite outcome
(InvalidOutcome on Unresolved); on success the outcome is written, the
h-ratio is computed from the vault balance, the status becomes Resolved,
and both values are frozen: every later resolve, cancel, place_bet or
claim_refund on the resolved state is rejected without change, and settle
never alters outcome or h-ratio. -/
theorem C9_resolve_guards_and_freeze (st : ProgState) (caller : Nat)
    (o : Outcome) :
    (caller ≠ st.market.oracle →
      resolve_market st caller o =
        Except.error PercolatorError.UnauthorizedOracle) ∧
    (caller = st.market.oracle →
      ¬(st.market.status = MarketStatus.Open ∨
        st.market.status = MarketStatus.Closed) →
      resolve_market st caller o =
        Except.error PercolatorError.AlreadyResolved) ∧
    (caller = st.market.oracle →
      (st.market.status = MarketStatus.Open ∨
        st.market.status = MarketStatus.Closed) →
      o = Outcome.Unresolved →
      resolve_market st caller o =
        Except.error PercolatorError.InvalidOutcome) ∧
    (caller = st.market.oracle →
      (st.market.status = MarketStatus.Open ∨
        st.market.status = MarketStatus.Closed) →
      o ≠ Outcome.Unresolved →
      resolve_market st caller o = Except.ok (resolvedState st o) ∧
      (resolvedState st o).market.outcome = o ∧
      (resolvedState st o).market.h_ratio_bps =
        Market.compute_h_ratio { st.market with outcome := o }
          st.vault_balance ∧
      (resolvedState st o).market.status = MarketStatus.Resolved ∧
      (∀ c2 o2, runOr (resolvedState st o)
          (resolve_market (resolvedState st o) c2 o2) = resolvedState st o) ∧
      (∀ c2, runOr (resolvedState st o)
          (cancel_market (resolvedState st o) c2) = resolvedState st o) ∧
      (∀ b sd a n, runOr (resolvedState st o)
          (place_bet (resolvedState st o) b sd a n) = resolvedState st o) ∧
      (∀ c2, runOr (resolvedState st o)
          (claim_refund (resolvedState st o) c2) = resolvedState st o) ∧
      (∀ c2, (runOr (resolvedState st o)
            (settle (resolvedState st o) c2)).market.outcome = o ∧
        (runOr (resolvedState st o)
            (settle (resolvedState st o) c2)).market.h_ratio_bps =
          (resolvedState st o).market.h_ratio_bps)) := by
  refine ⟨?_, ?_, ?_, ?_⟩
  · intro h
    simp only [resolve_market, if_neg h]
  · intro h1 h2
    simp only [resolve_market, if_pos h1, if_neg h2]
  · intro h1 h2 h3
    simp only [resolve_market, if_pos h1, if_pos h2, if_pos h3]
  · intro h1 h2 h3
    have hst : (resolvedState st o).market.status = MarketStatus.Resolved := rfl
    refine ⟨?_, rfl, rfl, rfl, ?_, ?_, ?_, ?_, ?_⟩
    · simp only [resolve_market, if_pos h1, if_pos h2, if_neg h3]
    · intro c2 o2
      exact runOr_resolve_on_resolved _ hst c2 o2
    · intro c2
      exact runOr_cancel_on_resolved _ hst c2
    · intro b sd a n
      apply runOr_place_bet_not_open
      rw [hst]
      intro hcontra
      cases hcontra
    · intro c2
      apply runOr_refund_not_cancelled
      rw [hst]
      intro hcontra
      cases hcontra
    · intro c2
      exact ⟨(settle_preserves_resolution (resolvedState st o) c2).1,
        (settle_preserves_resolution (resolvedState st o) c2).2.1⟩

/-- An Open market with oracle 2, pools 1000/500 and vault 1200, ready to
be resolved. -/
def stC9 : ProgState :=
  { market := { market_id := 1, creator := 1, oracle := 2, deadline := 100,
                status := MarketStatus.Open, yes_pool := 1000, no_pool := 500 },
    position := { user := 7, side := BetSide.Yes, deposited := 1000 },
    vault_balance := 1200 }

/-- C9 witness: the oracle resolving stC9 to YES succeeds and produces the
resolved state. -/
theorem C9_witness :
    resolve_market stC9 2 Outcome.Yes = Except.ok (resolvedState stC9 Outcome.Yes) :=
  ((C9_resolve_guards_and_freeze stC9 2 Outcome.Yes).2.2.2 rfl (Or.inl rfl)
    (by simp)).1

lemma wrapSub64_le_iff (v r : Nat) (hv : v ≤ U64MAX) (hr : r ≤ U64MAX) :
    (wrapSub64 v r ≤ v ↔ r ≤ v) := by
  simp only [wrapSub64, U64MAX, U64_MOD] at hv hr ⊢
  have hrm : r % 18446744073709551616 = r := Nat.mod_eq_of_lt (by omega)
  rw [hrm]
  rcases le_or_lt r v with h | h
  · have heq : v + (18446744073709551616 - r) =
        (v - r) + 18446744073709551616 := by omega
    rw [heq, Nat.add_mod_right, Nat.mod_eq_of_lt (by omega)]
    omega
  · have hlt : v + (18446744073709551616 - r) < 18446744073709551616 := by omega
    rw [Nat.mod_eq_of_lt hlt]
    omega

lemma wrapSub64_eq_sub (v r : Nat) (hr : r ≤ v) (hv : v ≤ U64MAX) :
    wrapSub64 v r = v - r := by
  simp only [wrapSub64, U64MAX, U64_MOD] at hv ⊢
  have hrm : r % 18446744073709551616 = r := Nat.mod_eq_of_lt (by omega)
  rw [hrm]
  have heq : v + (18446744073709551616 - r) =
      (v - r) + 18446744073709551616 := by omega
  rw [heq, Nat.add_mod_right, Nat.mod_eq_of_lt (by omega)]

/-- C10: claim_refund performs no vault-coverage check: with the vault
short of the deposit it still succeeds and subtracts with the unguarded
wrapping subtraction, which underflows (the stored balance wraps above the
old one); wrapSub64 agrees with true subtraction exactly when the balance
covers the refund, the claimed well-definedness precondition; settle, in
contrast, refuses with VaultInsolvency when the vault cannot cover the
payout. -/
theorem C10_refund_unguarded_subtraction (st : ProgState) (caller : Nat)
    (h1 : st.market.status = MarketStatus.Cancelled)
    (h2 : st.position.settled = false) (h3 : st.position.user = caller)
    (h4 : st.vault_balance < st.position.deposited)
    (hv : st.vault_balance ≤ U64MAX) (hd : st.position.deposited ≤ U64MAX) :
    claim_refund st caller = Except.ok { st with
      vault_balance := wrapSub64 st.vault_balance st.position.deposited,
      user_balance := wrapAdd64 st.user_balance st.position.deposited,
      position :=
        { st.position with settled := true, payout := st.position.deposited } } ∧
    st.vault_balance < (runOr st (claim_refund st caller)).vault_balance ∧
    (∀ a b, a ≤ U64MAX → b ≤ U64MAX → (wrapSub64 a b ≤ a ↔ b ≤ a)) ∧
    (∀ a b, b ≤ a → a ≤ U64MAX → wrapSub64 a b = a - b) ∧
    (∀ st2 c2, st2.market.status = MarketStatus.Resolved →
      st2.position.settled = false → st2.position.user = c2 →
      is_winner st2.market.outcome st2.position.side = true →
      st2.vault_balance <
        Market.calculate_payout st2.market st2.position.deposited →
      settle st2 c2 = Except.error PercolatorError.VaultInsolvency) := by
  have hok : claim_refund st caller = Except.ok { st with
      vault_balance := wrapSub64 st.vault_balance st.position.deposited,
      user_balance := wrapAdd64 st.user_balance st.position.deposited,
      position :=
        { st.position with settled := true, payout := st.position.deposited } } := by
    simp [claim_refund, h1, h2, h3]
  refine ⟨hok, ?_, ?_, ?_, ?_⟩
  · rw [hok]
    show st.vault_balance < wrapSub64 st.vault_balance st.position.deposited
    have hiff := wrapSub64_le_iff st.vault_balance st.position.deposited hv hd
    have hnle : ¬ wrapSub64 st.vault_balance st.position.deposited ≤
        st.vault_balance := by
      rw [hiff]
      omega
    omega
  · exact fun a b ha hb => wrapSub64_le_iff a b ha hb
  · exact fun a b hba ha => wrapSub64_eq_sub a b hba ha
  · intro st2 c2 g1 g2 g3 g4 g5
    have hno : ¬ Market.calculate_payout st2.market st2.position.deposited ≤
        st2.vault_balance := by omega
    simp [settle, g1, g2, g3, g4, hno]

/-- A Cancelled market whose vault (10 lamports) no longer covers the 50
lamports user 7 deposited. -/
def stC10 : ProgState :=
  { market := { market_id := 1, creator := 1, oracle := 2, deadline := 100,
                status := MarketStatus.Cancelled },
    position := { user := 7, side := BetSide.Yes, deposited := 50 },
    vault_balance := 10 }

/-- C10 witness: on stC10 the refund succeeds despite the shortfall and
the vault balance wraps. -/
theorem C10_witness :
    claim_refund stC10 7 = Except.ok { stC10 with
      vault_balance := wrapSub64 stC10.vault_balance 50,
      user_balance := wrapAdd64 stC10.user_balance 50,
      position := { stC10.position with settled := true, payout := 50 } } :=
  (C10_refund_unguarded_subtraction stC10 7 rfl rfl rfl (by decide) (by decide)
    (by decide)).1

end Percolator
